import Mathlib

/-!
Verification of the WebWaka platform-foundation offline-first sync engine and
realtime channel against its natural-language specification.

The definitions below are a shallow embedding of the TypeScript source:

* `OfflineRepository` (src/offline/db/repository.ts, quoted in
  docs/R3A_OFFLINE_FIRST_REPORT.md §3.1.2): IndexedDB-backed record store with
  metadata stamping and soft delete.
* `SyncManager` (src/offline/sync/sync-manager.ts, report §3.3.1):
  `pushLocalChanges` and `applyRemoteChange`.
* the service worker's `syncPendingMutations` (public/sw.js, report §3.2.2).
* `ConflictResolver` (src/offline/sync/conflict-resolver.ts, report §3.4.1).
* `NetworkMonitor` (src/offline/network/network-monitor.ts, report §3.5.1).
* `WebSocketService.validateMessage` / `handleMessage` and the delivery paths
  (pf2-realtime-eventing-infrastructure/src/websocket/WebSocketService.ts).
* `areConcurrent` (the vector-clock comparison of the reconciliation layer).

JavaScript timestamps (`Date.now()`) are modelled as explicit `now : Nat`
arguments.  Optional / falsy JS string fields are modelled as `Option` values
where `none` stands for every falsy value (absent, `undefined`, `null`, `""`):
the code only ever branches on truthiness of those fields, so the abstraction
is exact.  For numeric metadata fields the `|| d` default is kept explicitly
(`createdAt || now`; `version || 0`, which is the identity under `+ 1`).
An IndexedDB object store keyed by `keyPath: 'id'` is modelled as a map from
keys to optional values.
-/

namespace WebWaka

/-- Metadata block `_meta` stamped by `OfflineRepository.put`. -/
structure RecMeta where
  createdAt : Nat
  updatedAt : Nat
  version : Nat
  deleted : Bool
  deriving Repr, DecidableEq

/-- Body of a domain record as supplied by callers of `put`: a stable `id`, a
`tenantId` carried inside the item, and an opaque payload (modelled by
`title`, the field the spec scenarios use). -/
structure RecBody where
  id : String
  tenantId : String
  title : String
  deriving Repr, DecidableEq

/-- A record as stored in the `records` object store: body plus `_meta`. -/
structure StoredRecord where
  id : String
  tenantId : String
  title : String
  meta : RecMeta
  deriving Repr, DecidableEq

/-- Body part of a stored record (what survives a re-`put`, which re-stamps
the metadata). -/
def StoredRecord.body (r : StoredRecord) : RecBody :=
  { id := r.id, tenantId := r.tenantId, title := r.title }

/-- The IndexedDB object store keyed by `keyPath: 'id'`: a keyed map. -/
def RecStore := String → Option StoredRecord

/-- Lookup by primary key (`db.get(store, id)`). -/
def storeGet (s : RecStore) (id : String) : Option StoredRecord := s id

/-- Keyed upsert (`db.put(store, item)`): replaces the record stored under
`r.id`, or inserts it when absent. -/
def storePut (s : RecStore) (r : StoredRecord) : RecStore :=
  fun k => if k = r.id then some r else s k

/-- The empty object store. -/
def emptyStore : RecStore := fun _ => none

/-- `OfflineRepository.put(item)` from the source:

```ts
const now = Date.now();
const existingItem = await this.get(item.id);
const itemWithMeta = { ...item, _meta: {
  createdAt: existingItem?._meta?.createdAt || now,
  updatedAt: now,
  version: (existingItem?._meta?.version || 0) + 1,
  deleted: false } };
await db.put(this.storeName, itemWithMeta);
```

The `||` defaults are kept: a stored `createdAt` of `0` is falsy in JS and is
replaced by `now`; a stored `version` of `0` is falsy and defaults to `0`,
which leaves `version + 1` unchanged, so plain `+ 1` is exact.  Note that the
incoming item's own `_meta`, if any, is discarded: the spread `{ ...item }` is
followed by a fresh `_meta`. -/
def OfflineRepository.put (s : RecStore) (item : RecBody) (now : Nat) : RecStore :=
  let existing := storeGet s item.id
  let meta : RecMeta :=
    { createdAt := match existing with
        | some e => if e.meta.createdAt = 0 then now else e.meta.createdAt
        | none => now
      updatedAt := now
      version := (match existing with
        | some e => e.meta.version
        | none => 0) + 1
      deleted := false }
  storePut s { id := item.id, tenantId := item.tenantId, title := item.title, meta := meta }

/-- `OfflineRepository.delete(id)` from the source: soft delete.

```ts
const item = await this.get(id);
if (item) {
  const deletedItem = { ...item, _meta: { ...item._meta,
    updatedAt: Date.now(), deleted: true } };
  await db.put(this.storeName, deletedItem);
}
```

Note that the spread of `item._meta` keeps `version` (and `createdAt`)
unchanged. -/
def OfflineRepository.delete (s : RecStore) (id : String) (now : Nat) : RecStore :=
  match storeGet s id with
  | none => s
  | some item =>
      storePut s { item with meta := { item.meta with updatedAt := now, deleted := true } }

/-- A pending mutation as stored in the `pendingMutations` object store.  The
push paths read `mutation.id`, increment `mutation.retryCount` and set
`mutation.error`; the remaining captured intent is opaque here. -/
structure Mutation where
  id : String
  retryCount : Nat
  error : Option String
  payload : String
  deriving Repr, DecidableEq

/-- Offline client state: the `records` object store plus the
`pendingMutations` object store (as the ordered list `getAll` returns). -/
structure ClientState where
  records : RecStore
  pendingMutations : List Mutation

/-- Repository `put` lifted to the client state.  The source's
`OfflineRepository.put` writes only to its record store: it does not touch
`pendingMutations` (nothing in the offline layer appends a mutation on
`put`). -/
def clientPut (st : ClientState) (item : RecBody) (now : Nat) : ClientState :=
  { records := OfflineRepository.put st.records item now
    pendingMutations := st.pendingMutations }

/-- Repository `delete` lifted to the client state; like `put` it only writes
the record store. -/
def clientDelete (st : ClientState) (id : String) (now : Nat) : ClientState :=
  { records := OfflineRepository.delete st.records id now
    pendingMutations := st.pendingMutations }

/-! ## Push paths

`SyncManager.pushLocalChanges` (report §3.3.1) and the service worker's
`syncPendingMutations` (report §3.2.2) both iterate over a snapshot of
`getAll('pendingMutations')`, POST each mutation, and either delete it from
the store or re-store it with `retryCount` incremented and `error` recorded.

A push attempt is modelled by its outcome as seen by the client: the fetch
resolves with an HTTP response (`ok` or a non-success status), or the fetch
itself rejects (network failure).  `fetch` only rejects on network failure;
an HTTP error status still resolves. -/

/-- Outcome of one `fetch` of a push request. -/
inductive PushOutcome where
  /-- Response received, `response.ok` true. -/
  | ok : PushOutcome
  /-- Response received, non-success status (`response.ok` false),
  with its `statusText`. -/
  | httpError (statusText : String) : PushOutcome
  /-- The fetch rejected (network failure), with the error message. -/
  | networkError (msg : String) : PushOutcome
  deriving Repr, DecidableEq

/-- One iteration of the loop in `SyncManager.pushLocalChanges`:

```ts
const response = await fetch('/api/sync/push', { ... body: mutation });
if (!response.ok) { throw new Error(`Push failed: ...`); }
await db.delete('pendingMutations', mutation.id);
// catch: mutation.retryCount++; mutation.error = error.message;
//        await db.put('pendingMutations', mutation);
```

The `throw` on `!response.ok` lands in the same `catch` as a network
failure. -/
def pushStep (server : Mutation → PushOutcome) (q : List Mutation) (m : Mutation) :
    List Mutation :=
  match server m with
  | .ok => q.filter (fun x => x.id ≠ m.id)
  | .httpError e =>
      q.map (fun x => if x.id = m.id
        then { x with retryCount := x.retryCount + 1, error := some ("Push failed: " ++ e) }
        else x)
  | .networkError e =>
      q.map (fun x => if x.id = m.id
        then { x with retryCount := x.retryCount + 1, error := some e }
        else x)

/-- `SyncManager.pushLocalChanges`: iterates over the snapshot
`await db.getAll('pendingMutations')` taken before the loop, while the loop
body updates the store. -/
def pushLocalChanges (server : Mutation → PushOutcome) (q : List Mutation) :
    List Mutation :=
  q.foldl (pushStep server) q

/-- One iteration of the loop in the service worker's `syncPendingMutations`:

```ts
await fetch('/api/sync', { ... body: mutation });
// Remove from pending queue
await db.delete('pendingMutations', mutation.id);
// catch: mutation.retryCount++; mutation.error = error.message;
//        await db.put('pendingMutations', mutation);
```

Unlike `pushLocalChanges`, there is no `response.ok` check: a response with a
non-success status does not reject, so the mutation is deleted from the queue
even when the server answered with an error status. -/
def swSyncStep (server : Mutation → PushOutcome) (q : List Mutation) (m : Mutation) :
    List Mutation :=
  match server m with
  | .ok => q.filter (fun x => x.id ≠ m.id)
  | .httpError _ => q.filter (fun x => x.id ≠ m.id)
  | .networkError e =>
      q.map (fun x => if x.id = m.id
        then { x with retryCount := x.retryCount + 1, error := some e }
        else x)

/-- The service worker's `syncPendingMutations`, over the snapshot taken by
`db.getAll('pendingMutations')`. -/
def syncPendingMutations (server : Mutation → PushOutcome) (q : List Mutation) :
    List Mutation :=
  q.foldl (swSyncStep server) q

/-! ## Conflict resolver -/

/-- Resolution strategies of `ConflictResolver`.  The `manual` strategy
suspends into a UI callback (an unresolved promise) and is therefore outside
this pure embedding; the claims under verification only exercise the
computable strategies. -/
inductive Strategy where
  | lastWriteWins
  | firstWriteWins
  | operationalTransform
  deriving Repr, DecidableEq

/-- `ConflictResolver.lastWriteWins`:
`local._meta.updatedAt > remote._meta.updatedAt ? local : remote`. -/
def ConflictResolver.lastWriteWins (localRec remote : StoredRecord) : StoredRecord :=
  if localRec.meta.updatedAt > remote.meta.updatedAt then localRec else remote

/-- `ConflictResolver.firstWriteWins`:
`local._meta.updatedAt < remote._meta.updatedAt ? local : remote`. -/
def ConflictResolver.firstWriteWins (localRec remote : StoredRecord) : StoredRecord :=
  if localRec.meta.updatedAt < remote.meta.updatedAt then localRec else remote

/-- Text merge used by the operational-transform strategy: equal strings pass
through, differing strings are concatenated with conflict markers. -/
def mergeText (l r : String) : String :=
  if l = r then l
  else "<<<<<<< LOCAL\n" ++ l ++ "\n=======\n" ++ r ++ "\n>>>>>>> REMOTE"

/-- `ConflictResolver.operationalTransform`: starts from `{ ...remote }`,
merges every string field present on both sides with `mergeText` (in this
model: `id`, `tenantId`, `title`), then stamps
`_meta = { ...remote._meta, version: max(local, remote) + 1, updatedAt: now }`. -/
def ConflictResolver.operationalTransform (now : Nat) (localRec remote : StoredRecord) :
    StoredRecord :=
  { id := mergeText localRec.id remote.id
    tenantId := mergeText localRec.tenantId remote.tenantId
    title := mergeText localRec.title remote.title
    meta := { remote.meta with
      version := max localRec.meta.version remote.meta.version + 1
      updatedAt := now } }

/-- `ConflictResolver.resolve`, dispatching on the configured strategy. -/
def ConflictResolver.resolve (strategy : Strategy) (now : Nat)
    (localRec remote : StoredRecord) : StoredRecord :=
  match strategy with
  | .lastWriteWins => ConflictResolver.lastWriteWins localRec remote
  | .firstWriteWins => ConflictResolver.firstWriteWins localRec remote
  | .operationalTransform => ConflictResolver.operationalTransform now localRec remote

/-! ## Pull-phase application of remote changes -/

/-- `SyncManager.applyRemoteChange(change)`:

```ts
const localItem = await this.repository.get(change.id);
if (!localItem) { await this.repository.put(change); return; }
if (localItem._meta.version !== change._meta.version - 1) {
  const resolved = await this.conflictResolver.resolve(localItem, change);
  await this.repository.put(resolved);
} else {
  await this.repository.put(change);
}
```

Every branch funnels through `OfflineRepository.put`, which re-stamps the
metadata (in particular `version := local version + 1`) and never touches
`pendingMutations`.  The subtraction `change._meta.version - 1` is JS number
arithmetic, modelled over `Int`.  The second component of the result records
whether the conflict resolver was invoked. -/
def applyRemoteChange (strategy : Strategy) (st : ClientState)
    (change : StoredRecord) (now : Nat) : ClientState × Bool :=
  match storeGet st.records change.id with
  | none => (clientPut st change.body now, false)
  | some localItem =>
      if (localItem.meta.version : Int) ≠ (change.meta.version : Int) - 1 then
        let resolved := ConflictResolver.resolve strategy now localItem change
        (clientPut st resolved.body now, true)
      else
        (clientPut st change.body now, false)

/-! ## Realtime channel (WebSocketService) -/

/-- Interaction classes of `models/types.ts` (`CLASS_A` … `CLASS_D`). -/
inductive IClass where
  | A | B | C | D
  deriving Repr, DecidableEq

/-- Authenticated socket context established by the JWT middleware:
`socket.data.tenantId` and `socket.data.userId`. -/
structure SocketCtx where
  tenantId : String
  userId : String
  deriving Repr, DecidableEq

/-- The raw client payload of a `message` event.  Each field models the
corresponding property of `data`; `none` stands for any falsy value. -/
structure MsgData where
  type : Option String
  payload : Option String
  interactionClass : Option IClass
  tenantId : Option String
  senderId : Option String
  messageId : Option String
  recipientId : Option String
  roomId : Option String
  deriving Repr, DecidableEq

/-- The message envelope `WebSocketMessage` constructed by
`validateMessage`. -/
structure WsMessage where
  messageId : String
  type : String
  interactionClass : IClass
  tenantId : String
  senderId : String
  recipientId : Option String
  roomId : Option String
  payload : String
  timestamp : Nat
  deriving Repr, DecidableEq

/-- Errors thrown inside `handleMessage` / `validateMessage`; all are caught
by the surrounding `catch`, which logs them (`logger.error`) and emits an
`error` event to the sender. -/
inductive WsError where
  /-- `'Message must include type and payload'` -/
  | missingTypeOrPayload
  /-- `TenantIsolationViolation('Cannot send message for different tenant')` -/
  | tenantIsolationViolation
  /-- `'Message must specify recipientId or roomId'` -/
  | noRecipientOrRoom
  /-- `RateLimitExceeded('Message rate limit exceeded')` -/
  | rateLimitExceeded
  deriving Repr, DecidableEq

/-- `WebSocketService.validateMessage(socket, data)`:

```ts
const { tenantId, userId } = socket.data;
if (!data.type || !data.payload) { throw ... }
if (data.tenantId && data.tenantId !== tenantId) {
  throw new TenantIsolationViolation('Cannot send message for different tenant');
}
const message = { messageId: uuidv4(), type: data.type,
  interactionClass: data.interactionClass || InteractionClass.CLASS_C,
  tenantId, senderId: userId, recipientId: data.recipientId,
  roomId: data.roomId, payload: data.payload, timestamp: new Date() };
return message;
```

`fresh` models the freshly generated `uuidv4()` and `ts` the `new Date()`
timestamp. -/
def WebSocketService.validateMessage (ctx : SocketCtx) (fresh : String) (ts : Nat)
    (data : MsgData) : Except WsError WsMessage :=
  if data.type.isNone ∨ data.payload.isNone then
    .error .missingTypeOrPayload
  else if data.tenantId.any (fun t => t != ctx.tenantId) then
    .error .tenantIsolationViolation
  else
    .ok { messageId := fresh
          type := data.type.getD ""
          interactionClass := data.interactionClass.getD .C
          tenantId := ctx.tenantId
          senderId := ctx.userId
          recipientId := data.recipientId
          roomId := data.roomId
          payload := data.payload.getD ""
          timestamp := ts }

/-- Observable outcome of `handleMessage`: the message is routed to the
direct-send path, to the room-broadcast path, or refused.  A refusal is
always both logged (`logger.error('Error handling message', ...)`) and
signalled to the sender (`socket.emit('error', ...)`); routing ends with a
`message_ack`. -/
inductive MsgOutcome where
  /-- `sendDirectMessage(message)` then ack. -/
  | direct (m : WsMessage)
  /-- `broadcastToRoom(message)` then ack. -/
  | room (m : WsMessage)
  /-- The thrown error, caught, logged and emitted to the sender. -/
  | refused (e : WsError) (logged : Bool)
  deriving Repr, DecidableEq

/-- `WebSocketService.handleMessage(socket, data)`: rate limit, validate,
then route on `recipientId` / `roomId`.  `rateOk` models the outcome of
`checkRateLimit` (whether the sliding-window counter is below the ceiling). -/
def WebSocketService.handleMessage (ctx : SocketCtx) (fresh : String) (ts : Nat)
    (rateOk : Bool) (data : MsgData) : MsgOutcome :=
  if ¬rateOk then
    .refused .rateLimitExceeded true
  else
    match WebSocketService.validateMessage ctx fresh ts data with
    | .error e => .refused e true
    | .ok m =>
        match m.recipientId with
        | some _ => .direct m
        | none =>
            match m.roomId with
            | some _ => .room m
            | none => .refused .noRecipientOrRoom true

/-- Connection metadata relevant to delivery (`ConnectionMetadata`). -/
structure ConnMeta where
  connectionId : String
  tenantId : String
  userId : String
  deriving Repr, DecidableEq

/-- The connection filter of `deliverDirectMessage`:

```ts
const connections = Array.from(this.connections.values()).filter(
  conn => conn.userId === message.recipientId && conn.tenantId === message.tenantId);
```

Every socket emitted to comes from this list. -/
def deliverDirectTargets (conns : List ConnMeta) (m : WsMessage) : List ConnMeta :=
  conns.filter (fun c => some c.userId = m.recipientId ∧ c.tenantId = m.tenantId)

/-- Redis key of the per-recipient offline queue used by
`queueMessageForLater`. -/
def queueKey (m : WsMessage) : String :=
  "message_queue:" ++ m.tenantId ++ ":" ++ m.recipientId.getD ""

/-- Socket.IO room key used by `broadcastToRoom` / `deliverRoomMessage` and
`handleJoinRoom` (`socket.join(tenantId + ':' + roomId)`). -/
def roomKey (tenantId roomId : String) : String :=
  tenantId ++ ":" ++ roomId

/-! ## Network monitor -/

/-- Connectivity inputs consumed by `NetworkMonitor`: the browser
`online` / `offline` window events (carrying the advertised reachability) and
the result of one periodic `/api/ping` probe. -/
inductive NetEvent where
  | browser (advertised : Bool)
  | probe (success : Bool)
  deriving Repr, DecidableEq

/-- One step of `NetworkMonitor` state:

```ts
window.addEventListener('online', () => this.setOnline(true));
window.addEventListener('offline', () => this.setOnline(false));
// every 30s:
const actuallyOnline = await this.ping();
if (actuallyOnline !== this.online) { this.setOnline(actuallyOnline); }
```

so a browser event sets `online` to the advertised value and a probe result
that differs from the current value overrides it. -/
def NetworkMonitor.step (online : Bool) (e : NetEvent) : Bool :=
  match e with
  | .browser b => b
  | .probe r => if r ≠ online then r else online

/-- `NetworkMonitor.isOnline()` after consuming a sequence of events,
starting from the constructor's `navigator.onLine`. -/
def NetworkMonitor.isOnline (init : Bool) (events : List NetEvent) : Bool :=
  events.foldl NetworkMonitor.step init

/-- The host's advertised reachability after a trace: the value of the most
recent browser event, or the initial `navigator.onLine`. -/
def hostAdvertised (init : Bool) (events : List NetEvent) : Bool :=
  events.foldl (fun a e => match e with | .browser b => b | .probe _ => a) init

/-- Success of the most recent probe in a trace (no probe yet counts as
unsuccessful). -/
def lastProbeSuccess (events : List NetEvent) : Bool :=
  events.foldl (fun a e => match e with | .browser _ => a | .probe r => r) false

/-- The spec's claimed derivation of the effective-online signal: logical OR
of the advertised reachability and the probe success.  (Stated from the
spec's words, for comparison with `NetworkMonitor.isOnline`.) -/
def specEffectiveOnline (init : Bool) (events : List NetEvent) : Bool :=
  hostAdvertised init events || lastProbeSuccess events

/-! ## Vector clocks -/

/-- A vector clock: a JS object mapping client identifiers to counters,
modelled as an association list with unique keys. -/
def VectorClock := List (String × Nat)

/-- `clock[key] || 0`: lookup with missing keys read as `0`. -/
def vcGet (c : VectorClock) (k : String) : Nat :=
  match List.find? (fun p => p.1 = k) c with
  | some p => p.2
  | none => 0

/-- The keys of a clock (`Object.keys`). -/
def vcKeys (c : VectorClock) : List String := c.map (fun p => p.1)

/-- `areConcurrent(clock1, clock2)` from the reconciliation layer:

```ts
let clock1Greater = false; let clock2Greater = false;
const allKeys = new Set([...Object.keys(clock1), ...Object.keys(clock2)]);
for (const key of allKeys) {
  const v1 = clock1[key] || 0; const v2 = clock2[key] || 0;
  if (v1 > v2) clock1Greater = true;
  if (v2 > v1) clock2Greater = true;
}
return clock1Greater && clock2Greater;
```
-/
def areConcurrent (c1 c2 : VectorClock) : Bool :=
  let allKeys := vcKeys c1 ++ vcKeys c2
  let clock1Greater := allKeys.any (fun k => vcGet c1 k > vcGet c2 k)
  let clock2Greater := allKeys.any (fun k => vcGet c2 k > vcGet c1 k)
  clock1Greater && clock2Greater

/-- The spec's clock order: `A ≤ B` iff for every key `A[k] ≤ B[k]`, missing
keys read as `0`.  (Stated from the spec's words, for comparison with
`areConcurrent`.) -/
def vcLe (a b : VectorClock) : Prop :=
  ∀ k : String, vcGet a k ≤ vcGet b k

/-! ## Observed write sequences

Operations the offline layer performs on the client state: local `put`,
local soft `delete`, and the sync engine's application of a remote change.
Used to state version monotonicity over observed sequences of writes. -/

/-- One observed write. -/
inductive ClientOp where
  | put (item : RecBody) (now : Nat)
  | del (id : String) (now : Nat)
  | applyR (strategy : Strategy) (change : StoredRecord) (now : Nat)

/-- Run one observed write against the client state. -/
def runOp (st : ClientState) (op : ClientOp) : ClientState :=
  match op with
  | .put item now => clientPut st item now
  | .del id now => clientDelete st id now
  | .applyR strategy change now => (applyRemoteChange strategy st change now).1

/-- Run a sequence of observed writes. -/
def runOps (st : ClientState) (ops : List ClientOp) : ClientState :=
  ops.foldl runOp st

/-- Well-formedness of a record store under IndexedDB's `keyPath: 'id'`: the
value stored under key `k` has `id = k`.  Every store the code builds has
this shape (`db.put` keys by the record's own `id`). -/
def StoreWF (s : RecStore) : Prop :=
  ∀ k r, storeGet s k = some r → r.id = k

/-! ## Concrete fixtures used by witnesses and counterexamples -/

/-- Fixture record for the C2 theorems. -/
def c2Rec : StoredRecord :=
  { id := "d1", tenantId := "t1", title := "A"
    meta := { createdAt := 100, updatedAt := 100, version := 1, deleted := false } }

/-- Client state holding `c2Rec` and one already-pending mutation. -/
def c2State : ClientState :=
  { records := storePut emptyStore c2Rec
    pendingMutations := [{ id := "m1", retryCount := 0, error := none, payload := "create d1" }] }

/-- Fixture record for the C3 theorems (version 3). -/
def c3Rec : StoredRecord :=
  { id := "d1", tenantId := "t1", title := "A"
    meta := { createdAt := 50, updatedAt := 60, version := 3, deleted := false } }

/-- Store holding only `c3Rec`. -/
def c3Store : RecStore := storePut emptyStore c3Rec

/-- Fixture remote change for the C4 theorems (server version 4). -/
def c4Change : StoredRecord :=
  { id := "d1", tenantId := "t1", title := "R"
    meta := { createdAt := 100, updatedAt := 100, version := 4, deleted := false } }

/-- State after applying `c4Change` once to an empty client at time 1000. -/
def c4Once : ClientState :=
  (applyRemoteChange Strategy.lastWriteWins { records := emptyStore, pendingMutations := [] }
    c4Change 1000).1

/-- State after applying the identical `c4Change` a second time, at
time 2000. -/
def c4Twice : ClientState :=
  (applyRemoteChange Strategy.lastWriteWins c4Once c4Change 2000).1

/-- Scenario S2's local record: version 3, updatedAt 1000, title "L". -/
def s2Local : StoredRecord :=
  { id := "d2", tenantId := "t1", title := "L"
    meta := { createdAt := 500, updatedAt := 1000, version := 3, deleted := false } }

/-- Scenario S2's incoming change: version 4, updatedAt 2000, title "R". -/
def s2Incoming : StoredRecord :=
  { id := "d2", tenantId := "t1", title := "R"
    meta := { createdAt := 500, updatedAt := 2000, version := 4, deleted := false } }

/-- Scenario S2's client state: the local record plus its unpushed update
mutation. -/
def s2State : ClientState :=
  { records := storePut emptyStore s2Local
    pendingMutations := [{ id := "m1", retryCount := 0, error := none, payload := "update d2" }] }

/-- Result of the pull phase applying S2's incoming change under
last-write-wins at time 3000. -/
def s2Result : ClientState × Bool :=
  applyRemoteChange Strategy.lastWriteWins s2State s2Incoming 3000

/-- A conflicting incoming change for the same record (version 5, so the
version check `3 !== 5 - 1` declares a conflict). -/
def s5Incoming : StoredRecord :=
  { id := "d2", tenantId := "t1", title := "R"
    meta := { createdAt := 500, updatedAt := 2000, version := 5, deleted := false } }

/-- A store holding a record that belongs to tenant "t2", used to exhibit
the absence of tenant checks in the offline repository. -/
def t2Store : RecStore :=
  storePut emptyStore
    { id := "r1", tenantId := "t2", title := "secret"
      meta := { createdAt := 1, updatedAt := 1, version := 1, deleted := false } }

/-- A pair of incomparable vector clocks. -/
def vcA : VectorClock := [("a", 2), ("b", 1)]

/-- See `vcA`. -/
def vcB : VectorClock := [("a", 1), ("b", 2)]

/-! ## General lemmas about the embedded operations -/

theorem storeGet_storePut_self (s : RecStore) (r : StoredRecord) :
    storeGet (storePut s r) r.id = some r := by
  simp [storeGet, storePut]

theorem storeGet_storePut_ne (s : RecStore) (r : StoredRecord) (id : String)
    (h : id ≠ r.id) : storeGet (storePut s r) id = storeGet s id := by
  simp [storeGet, storePut, h]

theorem put_version (s : RecStore) (item : RecBody) (now : Nat) :
    (storeGet (OfflineRepository.put s item now) item.id).map (fun r => r.meta.version)
      = some ((match storeGet s item.id with
          | some e => e.meta.version
          | none => 0) + 1) := by
  unfold OfflineRepository.put
  rw [storeGet_storePut_self]
  rfl

theorem vcGet_eq_zero_of_not_mem (c : VectorClock) (k : String)
    (h : k ∉ vcKeys c) : vcGet c k = 0 := by
  unfold vcGet
  cases hf : List.find? (fun p => p.1 = k) c with
  | none => rfl
  | some p =>
      exfalso
      have hp := List.find?_some hf
      have hmem := List.mem_of_find?_eq_some hf
      apply h
      unfold vcKeys
      simp only [decide_eq_true_eq] at hp
      exact hp ▸ List.mem_map_of_mem (fun q => q.1) hmem

theorem vcGet_ne_zero_mem (c : VectorClock) (k : String) (h : vcGet c k ≠ 0) :
    k ∈ vcKeys c := by
  by_contra hm
  exact h (vcGet_eq_zero_of_not_mem c k hm)

theorem not_vcLe_iff_any (a b : VectorClock) (L : List String)
    (hsub : ∀ k, vcGet a k ≠ 0 → k ∈ L) :
    (L.any (fun k => vcGet a k > vcGet b k) = true) ↔ ¬ vcLe a b := by
  constructor
  · intro h hle
    obtain ⟨k, _, hgt⟩ := List.any_eq_true.mp h
    exact absurd (hle k) (Nat.not_le.mpr (of_decide_eq_true hgt))
  · intro h
    rw [vcLe] at h
    push_neg at h
    obtain ⟨k, hlt⟩ := h
    have hmem : k ∈ L := by
      apply hsub
      intro h0
      rw [h0] at hlt
      exact Nat.not_lt_zero _ hlt
    exact List.any_eq_true.mpr ⟨k, hmem, decide_eq_true hlt⟩

theorem areConcurrent_iff_incomparable (c1 c2 : VectorClock) :
    areConcurrent c1 c2 = true ↔ (¬ vcLe c1 c2 ∧ ¬ vcLe c2 c1) := by
  have hs1 : ∀ k, vcGet c1 k ≠ 0 → k ∈ vcKeys c1 ++ vcKeys c2 :=
    fun k h => List.mem_append_left _ (vcGet_ne_zero_mem c1 k h)
  have hs2 : ∀ k, vcGet c2 k ≠ 0 → k ∈ vcKeys c1 ++ vcKeys c2 :=
    fun k h => List.mem_append_right _ (vcGet_ne_zero_mem c2 k h)
  have h1 := not_vcLe_iff_any c1 c2 (vcKeys c1 ++ vcKeys c2) hs1
  have h2 := not_vcLe_iff_any c2 c1 (vcKeys c1 ++ vcKeys c2) hs2
  show (((vcKeys c1 ++ vcKeys c2).any (fun k => vcGet c1 k > vcGet c2 k)) &&
        ((vcKeys c1 ++ vcKeys c2).any (fun k => vcGet c2 k > vcGet c1 k))) = true ↔ _
  rw [Bool.and_eq_true, h1, h2]

/-! ### Well-formedness of stores and version monotonicity -/

theorem emptyStore_wf : StoreWF emptyStore := by
  intro k r h
  simp [storeGet, emptyStore] at h

theorem storePut_wf (s : RecStore) (r : StoredRecord) (hs : StoreWF s) :
    StoreWF (storePut s r) := by
  intro k x h
  unfold storeGet storePut at h
  by_cases hk : k = r.id
  · rw [if_pos hk] at h
    cases h
    exact hk.symm
  · rw [if_neg hk] at h
    exact hs k x h

theorem put_wf (s : RecStore) (item : RecBody) (now : Nat) (hs : StoreWF s) :
    StoreWF (OfflineRepository.put s item now) := by
  unfold OfflineRepository.put
  exact storePut_wf _ _ hs

theorem delete_wf (s : RecStore) (id : String) (now : Nat) (hs : StoreWF s) :
    StoreWF (OfflineRepository.delete s id now) := by
  unfold OfflineRepository.delete
  cases hd : storeGet s id with
  | none => simp only [hd]; exact hs
  | some item => simp only [hd]; exact storePut_wf _ _ hs

theorem storeGet_put_self (s : RecStore) (item : RecBody) (now : Nat) :
    ∃ rr, storeGet (OfflineRepository.put s item now) item.id = some rr ∧
      rr.id = item.id ∧ rr.tenantId = item.tenantId ∧ rr.title = item.title ∧
      rr.meta.version = (match storeGet s item.id with
        | some e => e.meta.version
        | none => 0) + 1 ∧
      rr.meta.updatedAt = now ∧ rr.meta.deleted = false := by
  unfold OfflineRepository.put
  exact ⟨_, storeGet_storePut_self _ _, rfl, rfl, rfl, rfl, rfl, rfl⟩

theorem storeGet_put_ne (s : RecStore) (item : RecBody) (now : Nat) (id : String)
    (h : id ≠ item.id) : storeGet (OfflineRepository.put s item now) id = storeGet s id := by
  unfold OfflineRepository.put
  exact storeGet_storePut_ne _ _ _ h

theorem put_get_mono (s : RecStore) (item : RecBody) (now : Nat) (id : String)
    (r : StoredRecord) (h : storeGet s id = some r) :
    ∃ rr, storeGet (OfflineRepository.put s item now) id = some rr ∧
      r.meta.version ≤ rr.meta.version := by
  by_cases hid : id = item.id
  · subst hid
    obtain ⟨rr, hget, _, _, _, hv, _, _⟩ := storeGet_put_self s item now
    refine ⟨rr, hget, ?_⟩
    rw [hv, h]
    exact Nat.le_succ _
  · exact ⟨r, (storeGet_put_ne s item now id hid).trans h, le_refl _⟩

theorem delete_get (s : RecStore) (did : String) (now : Nat) (hs : StoreWF s)
    (id : String) (r : StoredRecord) (h : storeGet s id = some r) :
    ∃ rr, storeGet (OfflineRepository.delete s did now) id = some rr ∧
      rr.meta.version = r.meta.version := by
  unfold OfflineRepository.delete
  cases hd : storeGet s did with
  | none => simp only [hd]; exact ⟨r, h, rfl⟩
  | some item =>
      simp only [hd]
      have hitem : item.id = did := hs did item hd
      by_cases hid : id = did
      · have hvid :
            ({ item with meta := { item.meta with updatedAt := now, deleted := true } }
              : StoredRecord).id = id := by
          rw [hid]
          exact hitem
        have hir : item = r := by
          rw [hid, hd] at h
          cases h
          rfl
        refine ⟨{ item with meta := { item.meta with updatedAt := now, deleted := true } },
          ?_, ?_⟩
        · rw [← hvid]
          exact storeGet_storePut_self _ _
        · rw [← hir]
      · have hne : id ≠
            ({ item with meta := { item.meta with updatedAt := now, deleted := true } }
              : StoredRecord).id := by
          show id ≠ item.id
          rw [hitem]
          exact hid
        refine ⟨r, ?_, rfl⟩
        rw [storeGet_storePut_ne _ _ _ hne]
        exact h

theorem applyRemoteChange_get_mono (strategy : Strategy) (st : ClientState)
    (change : StoredRecord) (now : Nat) (id : String) (r : StoredRecord)
    (h : storeGet st.records id = some r) :
    ∃ rr, storeGet (applyRemoteChange strategy st change now).1.records id = some rr ∧
      r.meta.version ≤ rr.meta.version := by
  unfold applyRemoteChange
  cases hl : storeGet st.records change.id with
  | none =>
      simp only [hl]
      exact put_get_mono _ _ _ _ _ h
  | some l =>
      simp only [hl]
      by_cases hv : (l.meta.version : Int) ≠ (change.meta.version : Int) - 1
      · rw [if_pos hv]
        exact put_get_mono _ _ _ _ _ h
      · rw [if_neg hv]
        exact put_get_mono _ _ _ _ _ h

theorem runOp_wf (st : ClientState) (op : ClientOp) (hs : StoreWF st.records) :
    StoreWF (runOp st op).records := by
  cases op with
  | put item now => exact put_wf _ _ _ hs
  | del id now => exact delete_wf _ _ _ hs
  | applyR strategy change now =>
      show StoreWF (applyRemoteChange strategy st change now).1.records
      unfold applyRemoteChange
      cases hl : storeGet st.records change.id with
      | none =>
          simp only [hl]
          exact put_wf _ _ _ hs
      | some l =>
          simp only [hl]
          by_cases hv : (l.meta.version : Int) ≠ (change.meta.version : Int) - 1
          · rw [if_pos hv]
            exact put_wf _ _ _ hs
          · rw [if_neg hv]
            exact put_wf _ _ _ hs

theorem runOp_version_mono (st : ClientState) (op : ClientOp) (hs : StoreWF st.records)
    (id : String) (r : StoredRecord) (h : storeGet st.records id = some r) :
    ∃ rr, storeGet (runOp st op).records id = some rr ∧
      r.meta.version ≤ rr.meta.version := by
  cases op with
  | put item now => exact put_get_mono _ _ _ _ _ h
  | del did now =>
      obtain ⟨rr, hget, hv⟩ := delete_get st.records did now hs id r h
      exact ⟨rr, hget, le_of_eq hv.symm⟩
  | applyR strategy change now => exact applyRemoteChange_get_mono _ _ _ _ _ _ h

theorem runOps_version_mono (ops : List ClientOp) :
    ∀ st : ClientState, StoreWF st.records →
    ∀ id r, storeGet st.records id = some r →
    ∃ rr, storeGet (runOps st ops).records id = some rr ∧
      r.meta.version ≤ rr.meta.version := by
  induction ops with
  | nil => exact fun st _ id r h => ⟨r, h, le_refl _⟩
  | cons op rest ih =>
      intro st hs id r h
      obtain ⟨r1, h1, hle1⟩ := runOp_version_mono st op hs id r h
      obtain ⟨r2, h2, hle2⟩ := ih (runOp st op) (runOp_wf st op hs) id r1 h1
      exact ⟨r2, h2, le_trans hle1 hle2⟩

/-! ### Conflict-path lemmas -/

theorem resolve_id (strategy : Strategy) (now : Nat) (l c : StoredRecord)
    (h : l.id = c.id) : (ConflictResolver.resolve strategy now l c).id = c.id := by
  cases strategy with
  | lastWriteWins =>
      show (ConflictResolver.lastWriteWins l c).id = c.id
      unfold ConflictResolver.lastWriteWins
      by_cases hu : l.meta.updatedAt > c.meta.updatedAt
      · rw [if_pos hu]
        exact h
      · rw [if_neg hu]
  | firstWriteWins =>
      show (ConflictResolver.firstWriteWins l c).id = c.id
      unfold ConflictResolver.firstWriteWins
      by_cases hu : l.meta.updatedAt < c.meta.updatedAt
      · rw [if_pos hu]
        exact h
      · rw [if_neg hu]
  | operationalTransform =>
      show mergeText l.id c.id = c.id
      rw [h]
      unfold mergeText
      rw [if_pos rfl]

theorem applyRemoteChange_bumps (strategy : Strategy) (st : ClientState)
    (change : StoredRecord) (now : Nat) (l : StoredRecord)
    (hwf : StoreWF st.records) (h : storeGet st.records change.id = some l) :
    (storeGet (applyRemoteChange strategy st change now).1.records change.id).map
        (fun rr => rr.meta.version) = some (l.meta.version + 1) ∧
    (applyRemoteChange strategy st change now).1.pendingMutations = st.pendingMutations := by
  have hlid : l.id = change.id := hwf change.id l h
  unfold applyRemoteChange
  simp only [h]
  by_cases hv : (l.meta.version : Int) ≠ (change.meta.version : Int) - 1
  · rw [if_pos hv]
    refine ⟨?_, rfl⟩
    have hrid : (ConflictResolver.resolve strategy now l change).body.id = change.id :=
      resolve_id strategy now l change hlid
    have hp := put_version st.records (ConflictResolver.resolve strategy now l change).body now
    rw [hrid] at hp
    rw [h] at hp
    exact hp
  · rw [if_neg hv]
    refine ⟨?_, rfl⟩
    have hp := put_version st.records change.body now
    have hbid : change.body.id = change.id := rfl
    rw [hbid] at hp
    rw [h] at hp
    exact hp

theorem applyRemoteChange_flag (strategy : Strategy) (st : ClientState)
    (change : StoredRecord) (now : Nat) :
    (applyRemoteChange strategy st change now).2 = true ↔
      ∃ l, storeGet st.records change.id = some l ∧
        (l.meta.version : Int) ≠ (change.meta.version : Int) - 1 := by
  unfold applyRemoteChange
  cases hl : storeGet st.records change.id with
  | none =>
      simp only [hl]
      constructor
      · intro hfalse
        simp at hfalse
      · rintro ⟨l, hl2, _⟩
        cases hl2
  | some l =>
      simp only [hl]
      by_cases hv : (l.meta.version : Int) ≠ (change.meta.version : Int) - 1
      · rw [if_pos hv]
        constructor
        · intro _
          exact ⟨l, rfl, hv⟩
        · intro _
          rfl
      · rw [if_neg hv]
        constructor
        · intro hfalse
          simp at hfalse
        · rintro ⟨l2, hl2, hv2⟩
          cases hl2
          exact absurd hv2 hv

theorem applyRemoteChange_write_through (strategy : Strategy) (st : ClientState)
    (change : StoredRecord) (now : Nat) (h : storeGet st.records change.id = none) :
    applyRemoteChange strategy st change now = (clientPut st change.body now, false) := by
  unfold applyRemoteChange
  simp only [h]

/-! ### Realtime validation lemmas -/

theorem validateMessage_ok_fields (ctx : SocketCtx) (fresh : String) (ts : Nat)
    (data : MsgData) (m : WsMessage)
    (h : WebSocketService.validateMessage ctx fresh ts data = Except.ok m) :
    m.tenantId = ctx.tenantId ∧ m.senderId = ctx.userId ∧ m.messageId = fresh := by
  unfold WebSocketService.validateMessage at h
  by_cases hp : data.type.isNone ∨ data.payload.isNone
  · rw [if_pos hp] at h
    cases h
  · rw [if_neg hp] at h
    by_cases ht : data.tenantId.any (fun t => t != ctx.tenantId) = true
    · rw [if_pos ht] at h
      cases h
    · rw [if_neg ht] at h
      cases h
      exact ⟨rfl, rfl, rfl⟩

theorem validateMessage_mismatch (ctx : SocketCtx) (fresh : String) (ts : Nat)
    (data : MsgData) (t : String) (hty : data.type.isSome) (hpl : data.payload.isSome)
    (hten : data.tenantId = some t) (hne : t ≠ ctx.tenantId) :
    WebSocketService.validateMessage ctx fresh ts data
      = Except.error WsError.tenantIsolationViolation := by
  unfold WebSocketService.validateMessage
  have hp : ¬(data.type.isNone ∨ data.payload.isNone) := by
    rintro (h | h)
    · rw [Option.isNone_iff_eq_none] at h
      rw [h] at hty
      cases hty
    · rw [Option.isNone_iff_eq_none] at h
      rw [h] at hpl
      cases hpl
  rw [if_neg hp]
  have ht : data.tenantId.any (fun s => s != ctx.tenantId) = true := by
    rw [hten]
    simpa [Option.any] using bne_iff_ne.mpr hne
  rw [if_pos ht]

/-! ## Claim C7 — mutation removal requires server acknowledgment -/

/-- C7: "A pending mutation is removed from the mutation log only after the
server acknowledges durable acceptance of it: for every push attempt in which
the server responds with a non-success status or the request fails, the
mutation remains in the queue with retryCount incremented and the error
recorded, and is never silently dropped."

The claim holds for `SyncManager.pushLocalChanges`, which checks
`response.ok` and re-queues with `retryCount + 1` and the error message — but
the service worker's `syncPendingMutations` never checks `response.ok`: a
fetch that resolves with a non-success HTTP status falls through to
`db.delete('pendingMutations', mutation.id)`, silently dropping the mutation.
This theorem evaluates both push paths at that failing input: one mutation,
server answering HTTP 500 (`statusText` "Internal Server Error").  The
service worker empties the queue; the sync manager keeps the mutation with
`retryCount` incremented and the error recorded. -/
theorem syncPendingMutations_drops_mutation_on_http_error :
    syncPendingMutations (fun _ => PushOutcome.httpError "Internal Server Error")
        [{ id := "m1", retryCount := 0, error := none, payload := "create d1" }]
      = [] ∧
    pushLocalChanges (fun _ => PushOutcome.httpError "Internal Server Error")
        [{ id := "m1", retryCount := 0, error := none, payload := "create d1" }]
      = [{ id := "m1", retryCount := 1,
           error := some "Push failed: Internal Server Error",
           payload := "create d1" }] := by
  constructor <;> rfl

/-! ## Claim C8 — Class-D exclusion -/

/-- C8: "Class-D exclusion: every attempt to send a Class-D message through
the realtime channel is refused with an error (kClassDNotAllowed) and has no
side effect on presence, rooms, or queues; no Class-D operation is ever
transmitted via C7, regardless of caller."

The claim matches the code's own documentation (models/types.ts: "CLASS_D:
Critical Transactions (realtime explicitly NOT allowed)"), but
`WebSocketService` never inspects `interactionClass`: `validateMessage`
passes `data.interactionClass` straight into the message (defaulting to
CLASS_C) and `handleMessage` routes it.  No `kClassDNotAllowed` error exists
anywhere in the source.  This theorem evaluates the code at the failing
input: an authenticated Class-D direct message is routed to the direct-send
path (Redis publish + `message_ack`), not refused. -/
theorem handleMessage_routes_class_d :
    WebSocketService.handleMessage { tenantId := "t1", userId := "u1" } "m-1" 5 true
        { type := some "payment", payload := some "pay-001",
          interactionClass := some IClass.D, tenantId := none, senderId := none,
          messageId := none, recipientId := some "u2", roomId := none }
      = MsgOutcome.direct
          { messageId := "m-1", type := "payment", interactionClass := IClass.D,
            tenantId := "t1", senderId := "u1", recipientId := some "u2",
            roomId := none, payload := "pay-001", timestamp := 5 } := by
  rfl

/-! ## Claim C9 — connectivity derivation -/

/-- C9 counterexample: the claim says the effective-online boolean equals the
OR of the host's advertised reachability and the probe success, and "while
the host still advertises reachability, a failed probe leaves the
effective-online signal true".  In the code, a probe whose result differs
from the current value overrides it: starting from `navigator.onLine = true`
(host advertises reachable), a single failed probe flips the monitor to
offline, while the claimed OR stays true. -/
theorem networkMonitor_not_or_counterexample :
    NetworkMonitor.isOnline true [NetEvent.probe false] = false ∧
    specEffectiveOnline true [NetEvent.probe false] = true ∧
    NetworkMonitor.isOnline true [NetEvent.probe false]
      ≠ specEffectiveOnline true [NetEvent.probe false] := by
  decide

/-- C9 amended: the connectivity monitor's effective-online boolean is
last-writer-wins over its two inputs, not their OR: a browser online/offline
event sets it to the advertised value, and every periodic probe sets it to
the probe's result (the code only calls `setOnline` when the probe result
differs, which has the same effect); in particular a failed probe while the
host still advertises reachability sets the effective-online signal to
false. -/
theorem networkMonitor_last_writer (init : Bool) (events : List NetEvent) (e : NetEvent) :
    NetworkMonitor.isOnline init (events ++ [e])
      = (match e with
         | NetEvent.browser b => b
         | NetEvent.probe r => r) := by
  unfold NetworkMonitor.isOnline
  rw [List.foldl_append]
  cases e with
  | browser b => rfl
  | probe r =>
      show NetworkMonitor.step _ (NetEvent.probe r) = r
      cases List.foldl NetworkMonitor.step init events <;> cases r <;> rfl

/-- Witness for the C9 amended theorem at concrete traces: after the traces
`[browser true, probe false]` and `[probe false, browser true]` the monitor
reports the value of the last input. -/
theorem networkMonitor_last_writer_witness :
    NetworkMonitor.isOnline true [NetEvent.browser true, NetEvent.probe false] = false ∧
    NetworkMonitor.isOnline false [NetEvent.probe false, NetEvent.browser true] = true := by
  constructor
  · exact networkMonitor_last_writer true [NetEvent.browser true] (NetEvent.probe false)
  · exact networkMonitor_last_writer false [NetEvent.probe false] (NetEvent.browser true)

/-! ## Claim C10 — message identity comes from the authenticated context -/

/-- C10: "For every authenticated connection and every payload submitted on
the message event, the message the realtime service constructs and routes
carries tenantId and senderId taken from the authenticated socket context and
a freshly server-generated messageId; the routed message's tenantId,
senderId, and messageId do not depend on any tenantId, senderId, or messageId
fields supplied in the payload (a payload tenantId that differs from the
authenticated tenant causes refusal instead)."

Confirmed: (1) every message `validateMessage` constructs carries the
context's tenant and user and the fresh uuid; (2) hence two payloads — in
particular two payloads differing only in their supplied `tenantId`,
`senderId`, `messageId` — yield identical identity fields; (3) a supplied
(truthy) tenantId differing from the authenticated tenant is refused with
`TenantIsolationViolation`. -/
theorem validateMessage_identity_from_context :
    (∀ (ctx : SocketCtx) (fresh : String) (ts : Nat) (data : MsgData) (m : WsMessage),
       WebSocketService.validateMessage ctx fresh ts data = Except.ok m →
       m.tenantId = ctx.tenantId ∧ m.senderId = ctx.userId ∧ m.messageId = fresh) ∧
    (∀ (ctx : SocketCtx) (fresh : String) (ts : Nat) (d₁ d₂ : MsgData) (m₁ m₂ : WsMessage),
       WebSocketService.validateMessage ctx fresh ts d₁ = Except.ok m₁ →
       WebSocketService.validateMessage ctx fresh ts d₂ = Except.ok m₂ →
       m₁.tenantId = m₂.tenantId ∧ m₁.senderId = m₂.senderId ∧ m₁.messageId = m₂.messageId) ∧
    (∀ (ctx : SocketCtx) (fresh : String) (ts : Nat) (data : MsgData) (t : String),
       data.type.isSome → data.payload.isSome → data.tenantId = some t →
       t ≠ ctx.tenantId →
       WebSocketService.validateMessage ctx fresh ts data
         = Except.error WsError.tenantIsolationViolation) := by
  refine ⟨validateMessage_ok_fields, ?_, validateMessage_mismatch⟩
  intro ctx fresh ts d₁ d₂ m₁ m₂ h₁ h₂
  obtain ⟨ht₁, hs₁, hm₁⟩ := validateMessage_ok_fields ctx fresh ts d₁ m₁ h₁
  obtain ⟨ht₂, hs₂, hm₂⟩ := validateMessage_ok_fields ctx fresh ts d₂ m₂ h₂
  exact ⟨ht₁.trans ht₂.symm, hs₁.trans hs₂.symm, hm₁.trans hm₂.symm⟩

/-- Witness for C10 at concrete inputs: a payload declaring tenant "t2" on a
socket authenticated as tenant "t1" is refused, and the message built from a
payload carrying forged `tenantId` (matching), `senderId` and `messageId`
fields still gets its identity from the socket context and the fresh uuid. -/
theorem validateMessage_identity_witness :
    WebSocketService.validateMessage { tenantId := "t1", userId := "u1" } "m-1" 5
        { type := some "chat", payload := some "hello", interactionClass := some IClass.C,
          tenantId := some "t2", senderId := some "evil", messageId := some "forged",
          recipientId := some "u2", roomId := none }
      = Except.error WsError.tenantIsolationViolation ∧
    (WebSocketService.validateMessage { tenantId := "t1", userId := "u1" } "m-1" 5
        { type := some "chat", payload := some "hello", interactionClass := some IClass.C,
          tenantId := some "t1", senderId := some "evil", messageId := some "forged",
          recipientId := some "u2", roomId := none }).toOption.map
      (fun m => (m.tenantId, m.senderId, m.messageId)) = some ("t1", "u1", "m-1") := by
  constructor
  · exact validateMessage_identity_from_context.2.2
      { tenantId := "t1", userId := "u1" } "m-1" 5
      { type := some "chat", payload := some "hello", interactionClass := some IClass.C,
        tenantId := some "t2", senderId := some "evil", messageId := some "forged",
        recipientId := some "u2", roomId := none }
      "t2" (by decide) (by decide) rfl (by decide)
  · have h : WebSocketService.validateMessage { tenantId := "t1", userId := "u1" } "m-1" 5
        { type := some "chat", payload := some "hello", interactionClass := some IClass.C,
          tenantId := some "t1", senderId := some "evil", messageId := some "forged",
          recipientId := some "u2", roomId := none }
        = Except.ok ⟨"m-1", "chat", IClass.C, "t1", "u1", some "u2", none, "hello", 5⟩ := by
      rfl
    obtain ⟨h1, h2, h3⟩ := validateMessage_identity_from_context.1 _ _ _ _ _ h
    rw [h]
    simp [Except.toOption, h1, h2, h3]

/-! ## Claim C2 — repository put -/

/-- C2 counterexample: the claim says `put(item)` "in the same transaction
appends a corresponding create-or-update pending mutation to the mutation
log".  `OfflineRepository.put` writes only the record store: after a fresh
`put` on a state with an empty mutation log, the log is still empty — no
create mutation was appended. -/
theorem put_appends_no_mutation_counterexample :
    (clientPut { records := emptyStore, pendingMutations := [] }
        { id := "d1", tenantId := "t1", title := "A" } 100).pendingMutations = [] ∧
    storeGet (clientPut { records := emptyStore, pendingMutations := [] }
        { id := "d1", tenantId := "t1", title := "A" } 100).records "d1"
      = some { id := "d1", tenantId := "t1", title := "A"
               meta := { createdAt := 100, updatedAt := 100, version := 1, deleted := false } } := by
  exact ⟨rfl, by decide⟩

/-- C2 amended: for every item and prior state, `put(item)` stores the record
with `createdAt` preserved from the existing record (or set to now when the
record is new), `updatedAt` set to now, `version` equal to the previous
version plus one (starting from 0 when absent) and `deleted` false — but it
appends no pending mutation: the mutation log is unchanged.  (The hypothesis
excludes a stored `createdAt` of 0, which JS `||` would treat as falsy and
replace with now.) -/
theorem clientPut_stamps_metadata_no_mutation (st : ClientState) (item : RecBody) (now : Nat)
    (hc : ∀ e, storeGet st.records item.id = some e → e.meta.createdAt ≠ 0) :
    (clientPut st item now).pendingMutations = st.pendingMutations ∧
    storeGet (clientPut st item now).records item.id = some
      { id := item.id, tenantId := item.tenantId, title := item.title
        meta := { createdAt := match storeGet st.records item.id with
                    | some e => e.meta.createdAt
                    | none => now
                  updatedAt := now
                  version := (match storeGet st.records item.id with
                    | some e => e.meta.version
                    | none => 0) + 1
                  deleted := false } } := by
  refine ⟨rfl, ?_⟩
  show storeGet (OfflineRepository.put st.records item now) item.id = _
  unfold OfflineRepository.put
  rw [show (storeGet (storePut st.records _) item.id) = _ from storeGet_storePut_self st.records _]
  cases hse : storeGet st.records item.id with
  | none => simp [hse]
  | some e => simp [hse, if_neg (hc e hse)]

/-- Witness for the C2 amended theorem: re-`put` of "d1" over `c2State` keeps
the pending queue as it was, preserves `createdAt = 100`, bumps `version` to
2, stamps `updatedAt := 200` and `deleted := false`. -/
theorem clientPut_stamps_metadata_witness :
    (clientPut c2State { id := "d1", tenantId := "t1", title := "B" } 200).pendingMutations
      = [{ id := "m1", retryCount := 0, error := none, payload := "create d1" }] ∧
    storeGet (clientPut c2State { id := "d1", tenantId := "t1", title := "B" } 200).records "d1"
      = some { id := "d1", tenantId := "t1", title := "B"
               meta := { createdAt := 100, updatedAt := 200, version := 2, deleted := false } } := by
  have hc : ∀ e, storeGet c2State.records "d1" = some e → e.meta.createdAt ≠ 0 := by
    intro e he
    have hge : storeGet c2State.records "d1" = some c2Rec := by decide
    rw [hge] at he
    cases he
    decide
  have h := clientPut_stamps_metadata_no_mutation c2State
    { id := "d1", tenantId := "t1", title := "B" } 200 hc
  have hge : storeGet c2State.records "d1" = some c2Rec := by decide
  refine ⟨h.1.trans rfl, ?_⟩
  rw [h.2, hge]
  rfl

/-! ## Claim C3 — monotonic version / soft delete -/

/-- C3 counterexample: the claim says `delete(id)` rewrites the record with
"version equal to the previous version plus one" and that version strictly
increases over every observed sequence of writes.  The source's soft delete
spreads the old `_meta` and overrides only `updatedAt` and `deleted`: on a
record with version 3, the soft-deleted record still has version 3, not 4 —
so across a write sequence containing a delete, version does not strictly
increase. -/
theorem delete_version_counterexample :
    storeGet (OfflineRepository.delete c3Store "d1" 2000) "d1"
      = some { id := "d1", tenantId := "t1", title := "A"
               meta := { createdAt := 50, updatedAt := 2000, version := 3, deleted := true } } ∧
    (storeGet (OfflineRepository.delete c3Store "d1" 2000) "d1").map (fun r => r.meta.version)
      ≠ some 4 := by
  decide

/-- C3 amended: for each (tenant, id), `put` increases `metadata.version` by
exactly one; `delete(id)` rewrites the record with `deleted = true` and
`updatedAt = now` but leaves `version` (and `createdAt`) unchanged; and over
every observed sequence of writes (put, soft delete, apply of remote
changes), the record's version is non-decreasing — monotone, but not
strictly increasing at deletes. -/
theorem version_monotone_amended :
    (∀ (st : ClientState) (item : RecBody) (now : Nat) (e : StoredRecord),
        storeGet st.records item.id = some e →
        (storeGet (clientPut st item now).records item.id).map (fun r => r.meta.version)
          = some (e.meta.version + 1)) ∧
    (∀ (st : ClientState) (id : String) (now : Nat) (r : StoredRecord),
        StoreWF st.records → storeGet st.records id = some r →
        storeGet (clientDelete st id now).records id
          = some { r with meta := { r.meta with updatedAt := now, deleted := true } }) ∧
    (∀ (ops : List ClientOp) (st : ClientState) (id : String) (r rr : StoredRecord),
        StoreWF st.records → storeGet st.records id = some r →
        storeGet (runOps st ops).records id = some rr →
        r.meta.version ≤ rr.meta.version) := by
  refine ⟨?_, ?_, ?_⟩
  · intro st item now e he
    have hp := put_version st.records item now
    rw [he] at hp
    exact hp
  · intro st id now r hwf h
    show storeGet (OfflineRepository.delete st.records id now) id = _
    unfold OfflineRepository.delete
    rw [h]
    have hid : r.id = id := hwf id r h
    rw [← hid]
    exact storeGet_storePut_self _ _
  · intro ops st id r rr hwf h hr
    obtain ⟨rr2, h2, hle⟩ := runOps_version_mono ops st hwf id r h
    rw [h2] at hr
    cases hr
    exact hle

/-- Witness for the C3 amended theorem: over `c3Store` (version 3), a re-put
yields version 4; a delete keeps version 3 while tombstoning; and after the
sequence [put, delete] the version (4) is at least the starting version
(3). -/
theorem version_monotone_witness :
    (storeGet (clientPut { records := c3Store, pendingMutations := [] }
        { id := "d1", tenantId := "t1", title := "B" } 70).records "d1").map
      (fun r => r.meta.version) = some 4 ∧
    storeGet (clientDelete { records := c3Store, pendingMutations := [] } "d1" 2000).records "d1"
      = some { id := "d1", tenantId := "t1", title := "A"
               meta := { createdAt := 50, updatedAt := 2000, version := 3, deleted := true } } ∧
    3 ≤ ((storeGet (runOps { records := c3Store, pendingMutations := [] }
        [ClientOp.put { id := "d1", tenantId := "t1", title := "B" } 70,
         ClientOp.del "d1" 80]).records "d1").map (fun r => r.meta.version)).getD 0 := by
  have hwf : StoreWF c3Store := storePut_wf emptyStore c3Rec emptyStore_wf
  have hg : storeGet c3Store "d1" = some c3Rec := by decide
  refine ⟨?_, ?_, ?_⟩
  · have := version_monotone_amended.1 { records := c3Store, pendingMutations := [] }
      { id := "d1", tenantId := "t1", title := "B" } 70 c3Rec hg
    simpa [c3Rec] using this
  · have := version_monotone_amended.2.1 { records := c3Store, pendingMutations := [] }
      "d1" 2000 c3Rec hwf hg
    simpa [c3Rec] using this
  · have hrr : storeGet (runOps { records := c3Store, pendingMutations := [] }
        [ClientOp.put { id := "d1", tenantId := "t1", title := "B" } 70,
         ClientOp.del "d1" 80]).records "d1"
        = some { id := "d1", tenantId := "t1", title := "B"
                 meta := { createdAt := 50, updatedAt := 80, version := 4, deleted := true } } := by
      decide
    have := version_monotone_amended.2.2
      [ClientOp.put { id := "d1", tenantId := "t1", title := "B" } 70,
       ClientOp.del "d1" 80]
      { records := c3Store, pendingMutations := [] } "d1" c3Rec
      { id := "d1", tenantId := "t1", title := "B"
        meta := { createdAt := 50, updatedAt := 80, version := 4, deleted := true } }
      hwf hg hrr
    rw [hrr]
    simp [c3Rec] at this
    simp [this]

/-! ## Claim C4 — at-most-once application -/

/-- C4 counterexample: the claim says applying the same remote change twice
is a no-op because application short-circuits when the local version already
equals or exceeds the incoming one.  `applyRemoteChange` has no such
short-circuit: the first application of `c4Change` (server version 4) on an
empty client stores the record with re-stamped version 1; re-applying the
identical change then takes the conflict path (1 ≠ 4 − 1), last-write-wins
elects the fresher local copy, and the record is rewritten with version 2 and
a new `updatedAt` — observably different from the state after the first
application. -/
theorem applyRemoteChange_twice_counterexample :
    storeGet c4Once.records "d1"
      = some { id := "d1", tenantId := "t1", title := "R"
               meta := { createdAt := 1000, updatedAt := 1000, version := 1, deleted := false } } ∧
    storeGet c4Twice.records "d1"
      = some { id := "d1", tenantId := "t1", title := "R"
               meta := { createdAt := 1000, updatedAt := 2000, version := 2, deleted := false } } ∧
    storeGet c4Twice.records "d1" ≠ storeGet c4Once.records "d1" := by
  decide

/-- C4 amended: re-application is never a no-op.  Whenever a local record
exists for the incoming change's id, `applyRemoteChange` rewrites the record
through `put`, which stamps `version := local version + 1` — in particular a
second application of an identical change increments the version again
instead of short-circuiting. -/
theorem applyRemoteChange_not_noop (strategy : Strategy) (st : ClientState)
    (change : StoredRecord) (now : Nat) (l : StoredRecord)
    (hwf : StoreWF st.records) (h : storeGet st.records change.id = some l) :
    (storeGet (applyRemoteChange strategy st change now).1.records change.id).map
        (fun rr => rr.meta.version) = some (l.meta.version + 1) :=
  (applyRemoteChange_bumps strategy st change now l hwf h).1

/-- Witness for the C4 amended theorem: the second application of `c4Change`
on `c4Once` (local version 1) stores version 2. -/
theorem applyRemoteChange_not_noop_witness :
    (storeGet c4Twice.records "d1").map (fun r => r.meta.version) = some 2 := by
  have hwf : StoreWF c4Once.records := put_wf emptyStore c4Change.body 1000 emptyStore_wf
  have h : storeGet c4Once.records c4Change.id
      = some { id := "d1", tenantId := "t1", title := "R"
               meta := { createdAt := 1000, updatedAt := 1000, version := 1, deleted := false } } := by
    decide
  exact applyRemoteChange_not_noop Strategy.lastWriteWins c4Once c4Change 2000 _ hwf h

/-! ## Claim C5 — conflict write version and scenario S2 -/

/-- C5 counterexample: in scenario S2 (local version 3, updatedAt 1000, title
"L" with an unpushed update; incoming version 4, updatedAt 2000, title "R";
last-write-wins) the claim expects a conflict resolved to title "R" with
version 5 and the pending mutation discarded.  The code instead
fast-forwards (3 = 4 − 1, so no conflict is declared): the stored record has
title "R" but version 4 (re-stamped `local version + 1`), the resolver is
never invoked, and the pending mutation is left untouched. -/
theorem s2_scenario_counterexample :
    (storeGet s2Result.1.records "d2").map (fun r => r.title) = some "R" ∧
    (storeGet s2Result.1.records "d2").map (fun r => r.meta.version) = some 4 ∧
    (storeGet s2Result.1.records "d2").map (fun r => r.meta.version) ≠ some 5 ∧
    s2Result.1.pendingMutations
      = [{ id := "m1", retryCount := 0, error := none, payload := "update d2" }] ∧
    s2Result.2 = false := by
  decide

/-- C5 amended: when the pull phase does declare a conflict (local exists and
its version is not incoming.version − 1), the resolver's single output is
written as the new record with `version = local.version + 1` — not
`max(local.version, incoming.version) + 1` — and the pending-mutation queue
is left unchanged (no local mutation is discarded).  Scenario S2 itself is a
fast-forward, not a conflict (see the counterexample). -/
theorem conflict_resolution_writes_local_version (strategy : Strategy) (st : ClientState)
    (change : StoredRecord) (now : Nat) (l : StoredRecord)
    (hwf : StoreWF st.records) (h : storeGet st.records change.id = some l)
    (hv : (l.meta.version : Int) ≠ (change.meta.version : Int) - 1) :
    (applyRemoteChange strategy st change now).2 = true ∧
    (storeGet (applyRemoteChange strategy st change now).1.records change.id).map
        (fun rr => rr.meta.version) = some (l.meta.version + 1) ∧
    (applyRemoteChange strategy st change now).1.pendingMutations
      = st.pendingMutations := by
  obtain ⟨hver, hmut⟩ := applyRemoteChange_bumps strategy st change now l hwf h
  exact ⟨(applyRemoteChange_flag strategy st change now).mpr ⟨l, h, hv⟩, hver, hmut⟩

/-- Witness for the C5 amended theorem: an incoming version-5 change over the
version-3 local record of scenario S2 is a genuine conflict; the stored
result has version 4 (= local 3 + 1, not max(3,5) + 1 = 6) and the pending
mutation is retained. -/
theorem conflict_resolution_writes_local_version_witness :
    (applyRemoteChange Strategy.lastWriteWins s2State s5Incoming 3000).2 = true ∧
    (storeGet (applyRemoteChange Strategy.lastWriteWins s2State s5Incoming 3000).1.records
        "d2").map (fun r => r.meta.version) = some 4 ∧
    (applyRemoteChange Strategy.lastWriteWins s2State s5Incoming 3000).1.pendingMutations
      = [{ id := "m1", retryCount := 0, error := none, payload := "update d2" }] := by
  have hwf : StoreWF s2State.records := storePut_wf emptyStore s2Local emptyStore_wf
  have h : storeGet s2State.records s5Incoming.id = some s2Local := by decide
  have hv : (s2Local.meta.version : Int) ≠ (s5Incoming.meta.version : Int) - 1 := by decide
  obtain ⟨hflag, hver, hmut⟩ :=
    conflict_resolution_writes_local_version Strategy.lastWriteWins s2State s5Incoming 3000
      s2Local hwf h hv
  exact ⟨hflag, hver, hmut⟩

/-! ## Claim C6 — concurrent-only conflicts -/

/-- C6: "the conflict resolver is invoked iff the local and incoming sides
are concurrent — their vector clocks are incomparable (treating missing keys
as 0, neither clock is pointwise less-than-or-equal to the other), or, where
vector clocks are absent, the local record exists and its version is not
exactly incoming.version minus 1 (not a parent-child relation); when no local
record exists the incoming change is written through without invoking the
resolver."

Confirmed.  (1) the reconciliation layer's `areConcurrent` decides exactly
incomparability of the two clocks under the spec's order with missing keys
read as 0; (2) the version-fallback path (`SyncManager.applyRemoteChange`)
invokes the resolver iff a local record exists whose version differs from
incoming.version − 1; (3) with no local record the change is written through
with the resolver not invoked. -/
theorem concurrent_only_conflicts :
    (∀ c1 c2 : VectorClock,
        areConcurrent c1 c2 = true ↔ (¬ vcLe c1 c2 ∧ ¬ vcLe c2 c1)) ∧
    (∀ (strategy : Strategy) (st : ClientState) (change : StoredRecord) (now : Nat),
        ((applyRemoteChange strategy st change now).2 = true ↔
          ∃ l, storeGet st.records change.id = some l ∧
            (l.meta.version : Int) ≠ (change.meta.version : Int) - 1)) ∧
    (∀ (strategy : Strategy) (st : ClientState) (change : StoredRecord) (now : Nat),
        storeGet st.records change.id = none →
        applyRemoteChange strategy st change now = (clientPut st change.body now, false)) :=
  ⟨areConcurrent_iff_incomparable, applyRemoteChange_flag, applyRemoteChange_write_through⟩

/-- Witness for C6 at concrete inputs: the incomparable clocks `vcA`, `vcB`
are concurrent (and, via the theorem, neither is below the other); a
version-5 incoming change over a version-3 local record invokes the
resolver; and applying a change on an empty store writes through without
invoking it. -/
theorem concurrent_only_conflicts_witness :
    areConcurrent vcA vcB = true ∧
    ¬ vcLe vcA vcB ∧
    ¬ vcLe vcB vcA ∧
    (applyRemoteChange Strategy.lastWriteWins s2State s5Incoming 3000).2 = true ∧
    applyRemoteChange Strategy.lastWriteWins { records := emptyStore, pendingMutations := [] }
        c4Change 1000
      = (clientPut { records := emptyStore, pendingMutations := [] } c4Change.body 1000,
         false) := by
  have hcc : areConcurrent vcA vcB = true := by decide
  obtain ⟨h1, h2⟩ := (concurrent_only_conflicts.1 vcA vcB).mp hcc
  refine ⟨hcc, h1, h2, ?_, ?_⟩
  · exact (concurrent_only_conflicts.2.1 Strategy.lastWriteWins s2State s5Incoming 3000).mpr
      ⟨s2Local, by decide, by decide⟩
  · exact concurrent_only_conflicts.2.2 Strategy.lastWriteWins
      { records := emptyStore, pendingMutations := [] } c4Change 1000 rfl

/-! ## Claim C1 — tenant isolation -/

/-- C1 counterexample: the claim asserts that no core operation executed with
declared tenant t reads or mutates a record belonging to t' ≠ t — including
repository get/getAll/put/delete.  The offline repository carries no tenant
context at all: `get` returns the record stored under the id regardless of
its `tenantId`, and `put` accepts an item whose `tenantId` differs from any
caller's declared tenant with no `kTenantMismatch` check.  Concretely, in a
session declared as tenant "t1", `get("r1")` on a store holding tenant "t2"'s
record returns that record, and `put` overwrites it. -/
theorem tenant_isolation_repo_counterexample :
    (storeGet t2Store "r1").map (fun r => r.tenantId) = some "t2" ∧
    "t2" ≠ "t1" ∧
    (storeGet (OfflineRepository.put t2Store
        { id := "r1", tenantId := "t2", title := "overwritten" } 9) "r1").map
      (fun r => r.title) = some "overwritten" := by
  decide

/-- C1 amended: tenant isolation is enforced on the realtime path only: a
message event whose payload declares a tenant different from the
authenticated connection's tenant is refused (`TenantIsolationViolation`) and
logged; every message that is routed carries the authenticated tenant and
sender; and direct delivery only targets connections of the message's
tenant (offline-queue and room keys are likewise namespaced by that tenant).
The offline repository's operations carry no tenant context and enforce
nothing (see the counterexample). -/
theorem realtime_tenant_isolation :
    (∀ (ctx : SocketCtx) (fresh : String) (ts : Nat) (data : MsgData) (t : String),
        data.type.isSome → data.payload.isSome → data.tenantId = some t →
        t ≠ ctx.tenantId →
        WebSocketService.handleMessage ctx fresh ts true data
          = MsgOutcome.refused WsError.tenantIsolationViolation true) ∧
    (∀ (ctx : SocketCtx) (fresh : String) (ts : Nat) (rateOk : Bool) (data : MsgData)
        (m : WsMessage),
        WebSocketService.handleMessage ctx fresh ts rateOk data = MsgOutcome.direct m ∨
        WebSocketService.handleMessage ctx fresh ts rateOk data = MsgOutcome.room m →
        m.tenantId = ctx.tenantId ∧ m.senderId = ctx.userId) ∧
    (∀ (conns : List ConnMeta) (m : WsMessage) (c : ConnMeta),
        c ∈ deliverDirectTargets conns m → c.tenantId = m.tenantId) := by
  refine ⟨?_, ?_, ?_⟩
  · intro ctx fresh ts data t hty hpl hten hne
    unfold WebSocketService.handleMessage
    rw [if_neg (not_not_intro rfl)]
    rw [validateMessage_mismatch ctx fresh ts data t hty hpl hten hne]
  · intro ctx fresh ts rateOk data m hor
    unfold WebSocketService.handleMessage at hor
    by_cases hr : rateOk = true
    · rw [if_neg (not_not_intro hr)] at hor
      cases hv : WebSocketService.validateMessage ctx fresh ts data with
      | error e =>
          rw [hv] at hor
          cases hor with
          | inl hh => exact MsgOutcome.noConfusion hh
          | inr hh => exact MsgOutcome.noConfusion hh
      | ok m0 =>
          rw [hv] at hor
          dsimp only [] at hor
          obtain ⟨h1, h2, _⟩ := validateMessage_ok_fields ctx fresh ts data m0 hv
          cases hrec : m0.recipientId with
          | some u =>
              rw [hrec] at hor
              cases hor with
              | inl hh =>
                  cases hh
                  exact ⟨h1, h2⟩
              | inr hh => exact MsgOutcome.noConfusion hh
          | none =>
              rw [hrec] at hor
              cases hroom : m0.roomId with
              | some rid =>
                  rw [hroom] at hor
                  cases hor with
                  | inl hh => exact MsgOutcome.noConfusion hh
                  | inr hh =>
                      cases hh
                      exact ⟨h1, h2⟩
              | none =>
                  rw [hroom] at hor
                  cases hor with
                  | inl hh => exact MsgOutcome.noConfusion hh
                  | inr hh => exact MsgOutcome.noConfusion hh
    · rw [if_pos hr] at hor
      cases hor with
      | inl hh => exact MsgOutcome.noConfusion hh
      | inr hh => exact MsgOutcome.noConfusion hh
  · intro conns m c hmem
    unfold deliverDirectTargets at hmem
    have hp := (List.mem_filter.mp hmem).2
    exact (of_decide_eq_true hp).2

/-- Witness for the C1 amended theorem at concrete inputs: tenant "t2"
declared on a "t1" socket is refused and logged; the routed message of a
well-formed payload carries tenant "t1" and sender "u1"; and a connection
selected for delivery of a tenant-"t1" message belongs to tenant "t1". -/
theorem realtime_tenant_isolation_witness :
    WebSocketService.handleMessage { tenantId := "t1", userId := "u1" } "m-2" 7 true
        { type := some "chat", payload := some "hi", interactionClass := some IClass.B,
          tenantId := some "t2", senderId := none, messageId := none,
          recipientId := some "u2", roomId := none }
      = MsgOutcome.refused WsError.tenantIsolationViolation true ∧
    (⟨"m-2", "chat", IClass.B, "t1", "u1", some "u2", none, "hi", 7⟩ : WsMessage).tenantId
        = "t1" ∧
    (⟨"m-2", "chat", IClass.B, "t1", "u1", some "u2", none, "hi", 7⟩ : WsMessage).senderId
        = "u1" ∧
    (⟨"c1", "t1", "u2"⟩ : ConnMeta).tenantId
      = (⟨"m-2", "chat", IClass.B, "t1", "u1", some "u2", none, "hi", 7⟩ : WsMessage).tenantId := by
  refine ⟨?_, ?_, ?_, ?_⟩
  · exact realtime_tenant_isolation.1 { tenantId := "t1", userId := "u1" } "m-2" 7
      { type := some "chat", payload := some "hi", interactionClass := some IClass.B,
        tenantId := some "t2", senderId := none, messageId := none,
        recipientId := some "u2", roomId := none }
      "t2" (by decide) (by decide) rfl (by decide)
  · have hroute : WebSocketService.handleMessage { tenantId := "t1", userId := "u1" } "m-2" 7 true
        { type := some "chat", payload := some "hi", interactionClass := some IClass.B,
          tenantId := none, senderId := none, messageId := none,
          recipientId := some "u2", roomId := none }
        = MsgOutcome.direct ⟨"m-2", "chat", IClass.B, "t1", "u1", some "u2", none, "hi", 7⟩ := by
      rfl
    exact (realtime_tenant_isolation.2.1 { tenantId := "t1", userId := "u1" } "m-2" 7 true
      { type := some "chat", payload := some "hi", interactionClass := some IClass.B,
        tenantId := none, senderId := none, messageId := none,
        recipientId := some "u2", roomId := none }
      ⟨"m-2", "chat", IClass.B, "t1", "u1", some "u2", none, "hi", 7⟩ (Or.inl hroute)).1
  · have hroute : WebSocketService.handleMessage { tenantId := "t1", userId := "u1" } "m-2" 7 true
        { type := some "chat", payload := some "hi", interactionClass := some IClass.B,
          tenantId := none, senderId := none, messageId := none,
          recipientId := some "u2", roomId := none }
        = MsgOutcome.direct ⟨"m-2", "chat", IClass.B, "t1", "u1", some "u2", none, "hi", 7⟩ := by
      rfl
    exact (realtime_tenant_isolation.2.1 { tenantId := "t1", userId := "u1" } "m-2" 7 true
      { type := some "chat", payload := some "hi", interactionClass := some IClass.B,
        tenantId := none, senderId := none, messageId := none,
        recipientId := some "u2", roomId := none }
      ⟨"m-2", "chat", IClass.B, "t1", "u1", some "u2", none, "hi", 7⟩ (Or.inl hroute)).2
  · exact realtime_tenant_isolation.2.2
      [⟨"c1", "t1", "u2"⟩, ⟨"c2", "t9", "u2"⟩]
      ⟨"m-2", "chat", IClass.B, "t1", "u1", some "u2", none, "hi", 7⟩
      ⟨"c1", "t1", "u2"⟩ (by decide)

end WebWaka
